import Mathlib

/-
Verification of the user-file store: the `UserFile` entity lifecycle
(load / unload / save / saveAs / delete / rename) and the collection
reconciler `syncEntitiesV2` / `syncFiles`.

The TypeScript class mutates `this` and awaits remote calls; here every
operation is a pure function from the entity state (plus the remote
response it would receive) to the resulting state, paired with the list
of remote calls it issues.  A thrown exception becomes an `Except.error`
carrying the message together with the entity state left behind at the
throw point.
-/

namespace UserFileStore

structure PathDetails where
  directory : String
  fullFilename : String
  filename : String
  suffix : Option String
  deriving DecidableEq

/-- Split a character list at every occurrence of the separator
(always returns at least one, possibly empty, segment). -/
def splitChar (sep : Char) : List Char → List (List Char)
  | [] => [[]]
  | c :: cs =>
    let rest := splitChar sep cs
    if c = sep then [] :: rest
    else
      match rest with
      | [] => [[c]]
      | r :: rs => (c :: r) :: rs

/-- Modelled from the spec: the path utility collaborator
(`getPathDetails` of the format utilities, not part of the provided
sources) splits a slash-delimited relative path into the directory
part, the full filename, the filename without suffix, and a nullable
suffix; the suffix is absent when no dot-qualified extension exists. -/
def getPathDetails (path : String) : PathDetails :=
  let parts := splitChar '/' path.data
  let fullFilenameChars := parts.getLastD []
  let directory := String.mk (List.intercalate ['/'] parts.dropLast)
  let nameParts := splitChar '.' fullFilenameChars
  if 2 ≤ nameParts.length then
    { directory := directory, fullFilename := String.mk fullFilenameChars,
      filename := String.mk (List.intercalate ['.'] nameParts.dropLast),
      suffix := some (String.mk (nameParts.getLastD [])) }
  else
    { directory := directory, fullFilename := String.mk fullFilenameChars,
      filename := String.mk fullFilenameChars, suffix := none }

/-- The entity: one remote-backed file.  Mirrors the fields of the
TypeScript `UserFile` class. -/
structure UserFile where
  path : String
  directory : String
  fullFilename : String
  filename : String
  suffix : Option String
  lastModified : Int
  size : Int
  isLoading : Bool
  content : Option String
  originalContent : Option String
  deriving DecidableEq

/-- The `UserFile` constructor: stores the path, decomposes it via
`getPathDetails`, and initialises the cache fields to their defaults. -/
def UserFile.create (path : String) (lastModified : Int) (size : Int) : UserFile :=
  let details := getPathDetails path
  { path := path, directory := details.directory,
    fullFilename := details.fullFilename, filename := details.filename,
    suffix := details.suffix, lastModified := lastModified, size := size,
    isLoading := false, content := none, originalContent := none }

/-- `updatePath`: replace the path and recompute the derived path fields. -/
def UserFile.updatePath (f : UserFile) (newPath : String) : UserFile :=
  let details := getPathDetails newPath
  { f with
    path := newPath,
    directory := details.directory,
    fullFilename := details.fullFilename,
    filename := details.filename,
    suffix := details.suffix }

/-- `UserFile.createTemporary`: size is the temporary sentinel `-1`;
`Date.now()` becomes the explicit `now` argument. -/
def UserFile.createTemporary (path : String) (now : Int) : UserFile :=
  UserFile.create path now (-1)

def UserFile.isTemporary (f : UserFile) : Bool :=
  f.size == -1

def UserFile.isPersisted (f : UserFile) : Bool :=
  !f.isTemporary

def UserFile.key (f : UserFile) : String :=
  f.path

def UserFile.isLoaded (f : UserFile) : Bool :=
  f.content.isSome

def UserFile.isModified (f : UserFile) : Bool :=
  f.content != f.originalContent

/-- Remote calls an operation may issue, with the arguments sent. -/
inductive ApiCall where
  | getUserData (path : String)
  | storeUserData (path : String) (content : Option String) (overwrite : Bool)
  | deleteUserData (path : String)
  | moveUserData (oldPath : String) (newPath : String)
  deriving DecidableEq

/-- Response of the content-fetch endpoint (`api.getUserData`). -/
structure GetResp where
  status : Nat
  statusText : String
  text : String
  deriving DecidableEq

/-- The metadata object a store or move response may carry
(`full_info` shape). -/
structure UserDataFullInfo where
  modified : Int
  size : Int
  deriving DecidableEq

/-- Response of the move endpoint: a status plus a JSON body that is
either a bare string (legacy) or a full metadata object. -/
structure MoveResp where
  status : Nat
  statusText : String
  json : Sum String UserDataFullInfo
  deriving DecidableEq

/-- Response of the delete endpoint. -/
structure StatusResp where
  status : Nat
  statusText : String
  deriving DecidableEq

def loadErrorMsg (path : String) (status : Nat) (statusText : String) : String :=
  "Failed to load file \x27" ++ path ++ "\x27: " ++ toString status ++ " " ++ statusText

def deleteErrorMsg (path : String) (status : Nat) (statusText : String) : String :=
  "Failed to delete file \x27" ++ path ++ "\x27: " ++ toString status ++ " " ++ statusText

def renameErrorMsg (path : String) (status : Nat) (statusText : String) : String :=
  "Failed to rename file \x27" ++ path ++ "\x27: " ++ toString status ++ " " ++ statusText

/-- `load({force})`: immediate return (no call) if temporary, or loaded
and not forced; otherwise sets `isLoading`, fetches, throws on non-200
(leaving `isLoading` set), and on 200 stores the text as both `content`
and `originalContent` and clears `isLoading`. -/
def UserFile.load (f : UserFile) (force : Bool) (resp : GetResp) :
    List ApiCall × Except (String × UserFile) UserFile :=
  if f.isTemporary || (!force && f.isLoaded) then
    ([], Except.ok f)
  else
    let f1 : UserFile := { f with isLoading := true }
    if resp.status ≠ 200 then
      ([ApiCall.getUserData f.path],
        Except.error (loadErrorMsg f.path resp.status resp.statusText, f1))
    else
      ([ApiCall.getUserData f.path],
        Except.ok { f1 with
          content := some resp.text,
          originalContent := some resp.text,
          isLoading := false })

/-- `unload()`: clear the content cache and the loading flag. -/
def UserFile.unload (f : UserFile) : UserFile :=
  { f with content := none, originalContent := none, isLoading := false }

/-- `save({force})`: skip when persisted, unmodified and not forced;
otherwise issue one store call with `overwrite = isPersisted`, adopt
the metadata if the response body is a full-info object, and snapshot
`originalContent := content`.  (The store call itself throws on error
before any state change; success responses are modelled here.) -/
def UserFile.save (f : UserFile) (force : Bool)
    (respJson : Sum String UserDataFullInfo) : List ApiCall × UserFile :=
  if f.isPersisted && !f.isModified && !force then
    ([], f)
  else
    let f1 : UserFile :=
      match respJson with
      | Sum.inl _ => f
      | Sum.inr info => { f with lastModified := info.modified, size := info.size }
    ([ApiCall.storeUserData f.path f.content f.isPersisted],
      { f1 with originalContent := f.content })

/-- `saveAs(newPath)`: reuse the receiver when temporary, otherwise
construct a fresh temporary entity at `newPath`; copy the content over
and `save` it (with the default `force := false`). -/
def UserFile.saveAs (f : UserFile) (newPath : String) (now : Int)
    (respJson : Sum String UserDataFullInfo) : List ApiCall × UserFile :=
  let tempFile := if f.isTemporary then f else UserFile.createTemporary newPath now
  let tempFile2 := { tempFile with content := f.content }
  tempFile2.save false respJson

/-- `delete()`: no-op when temporary; otherwise one delete call,
throwing unless the status is 204.  The entity state is never changed. -/
def UserFile.delete (f : UserFile) (resp : StatusResp) :
    List ApiCall × Except String UserFile :=
  if f.isTemporary then
    ([], Except.ok f)
  else if resp.status ≠ 204 then
    ([ApiCall.deleteUserData f.path],
      Except.error (deleteErrorMsg f.path resp.status resp.statusText))
  else
    ([ApiCall.deleteUserData f.path], Except.ok f)

/-- `rename(newPath)`: temporary entities only update the local path
fields; persisted entities issue a move call, throw on non-200 with the
path untouched, and on success update the path fields and adopt the
metadata when the response body is a full-info object. -/
def UserFile.rename (f : UserFile) (newPath : String) (resp : MoveResp) :
    List ApiCall × Except (String × UserFile) UserFile :=
  if f.isTemporary then
    ([], Except.ok (f.updatePath newPath))
  else if resp.status ≠ 200 then
    ([ApiCall.moveUserData f.path newPath],
      Except.error (renameErrorMsg f.path resp.status resp.statusText, f))
  else
    let f1 := f.updatePath newPath
    let f2 :=
      match resp.json with
      | Sum.inl _ => f1
      | Sum.inr info => { f1 with lastModified := info.modified, size := info.size }
    ([ApiCall.moveUserData f.path newPath], Except.ok f2)

/-- Entry of the structured v2 listing: a path typed as file or
directory, with optional size and modified metadata. -/
inductive EntryType where
  | file
  | directory
  deriving DecidableEq

structure ListingEntry where
  path : String
  entryType : EntryType
  size : Option Int := none
  modified : Option Int := none
  deriving DecidableEq

/-- The keyed collection `entityByPath`, as an insertion-ordered
association list (the semantics of a JS object keyed by strings). -/
abbrev EntityMap (T : Type) := List (String × T)

def mapFind {T : Type} (m : EntityMap T) (k : String) : Option T :=
  match m with
  | [] => none
  | (k0, v) :: rest => if k0 = k then some v else mapFind rest k

/-- Keyed insertion: replace in place when the key exists, append
otherwise (JS object assignment). -/
def mapInsert {T : Type} (m : EntityMap T) (k : String) (v : T) : EntityMap T :=
  match m with
  | [] => [(k, v)]
  | (k0, v0) :: rest =>
    if k0 = k then (k0, v) :: rest else (k0, v0) :: mapInsert rest k v

def mapKeys {T : Type} (m : EntityMap T) : List String :=
  m.map Prod.fst

/-- Insertion-ordered set insertion (JS `Set.add`). -/
def addUnique (s : List String) (x : String) : List String :=
  if x ∈ s then s else s ++ [x]

/-- The reconciler state: `entityByPath` plus the tracked directory set
(`userDirs`). -/
structure SyncState (T : Type) where
  entityByPath : EntityMap T
  dirSet : List String
  deriving DecidableEq

/-- One iteration of the add-or-update loop of `syncEntitiesV2` for a
file entry: create when absent, skip when excluded, update otherwise. -/
def syncStep {T : Type} (createEntity : ListingEntry → T)
    (updateEntity : T → ListingEntry → T) (exclude : T → Bool)
    (m : EntityMap T) (fileEntry : ListingEntry) : EntityMap T :=
  match mapFind m fileEntry.path with
  | none => mapInsert m fileEntry.path (createEntity fileEntry)
  | some existing =>
    if exclude existing then m
    else mapInsert m fileEntry.path (updateEntity existing fileEntry)

/-- The `files` of the reconciler body: the file-typed entries of the
listing. -/
def fileEntriesOf (entries : List ListingEntry) : List ListingEntry :=
  entries.filter (fun e => e.entryType == EntryType.file)

/-- The rebuilt directory set: every directory-typed entry's path,
added in order to a cleared set. -/
def dirSetOf (entries : List ListingEntry) : List String :=
  entries.foldl
    (fun s e => if e.entryType == EntryType.directory then addUnique s e.path else s) []

/-- `syncEntitiesV2`: fetch the listing (an error there rejects the
whole sync with the state untouched); rebuild the directory set
wholesale from the directory-typed entries when tracking is requested;
add or update an entity for every file-typed entry; finally remove
every non-excluded entity whose path is absent from the file entries. -/
def syncEntitiesV2 {ε T : Type} (listUserDataV2 : String → Except ε (List ListingEntry))
    (path : String) (createEntity : ListingEntry → T)
    (updateEntity : T → ListingEntry → T) (exclude : T → Bool)
    (trackDirs : Bool) (st : SyncState T) :
    Except (ε × SyncState T) (SyncState T) :=
  match listUserDataV2 path with
  | Except.error e => Except.error (e, st)
  | Except.ok entries =>
    let dirs := if trackDirs then dirSetOf entries else st.dirSet
    let files := fileEntriesOf entries
    let m1 := files.foldl (syncStep createEntity updateEntity exclude) st.entityByPath
    let m2 := m1.filter (fun kv => exclude kv.2 || files.any (fun e => e.path == kv.1))
    Except.ok ⟨m2, dirs⟩

/-- The `createEntity` callback of the store's `syncFiles`: a new
`UserFile` with missing metadata defaulted to `0`. -/
def syncFilesCreate (entry : ListingEntry) : UserFile :=
  UserFile.create entry.path (entry.modified.getD 0) (entry.size.getD 0)

/-- The `updateEntity` callback of the store's `syncFiles`: adopt the
reported metadata (keeping the old value when a field is missing) and
`unload()` the cached content. -/
def syncFilesUpdate (existingFile : UserFile) (entry : ListingEntry) : UserFile :=
  UserFile.unload
    { existingFile with
      lastModified := entry.modified.getD existingFile.lastModified,
      size := entry.size.getD existingFile.size }

/-- The store's `syncFiles(dir)`: `syncEntitiesV2` instantiated with
the `UserFile` callbacks, an exclusion predicate that excludes nothing,
and directory tracking on. -/
def syncFiles {ε : Type} (api : String → Except ε (List ListingEntry)) (dir : String)
    (st : SyncState UserFile) :
    Except (ε × SyncState UserFile) (SyncState UserFile) :=
  syncEntitiesV2 api dir syncFilesCreate syncFilesUpdate (fun _ => false) true st

/-! ### Helper lemmas about the keyed collection -/

theorem mapFind_insert_self {T : Type} (m : EntityMap T) (k : String) (v : T) :
    mapFind (mapInsert m k v) k = some v := by
  induction m with
  | nil => simp [mapInsert, mapFind]
  | cons kv rest ih =>
    obtain ⟨k0, v0⟩ := kv
    by_cases h : k0 = k <;> simp [mapInsert, mapFind, h, ih]

theorem mapFind_insert_ne {T : Type} (m : EntityMap T) (k p : String) (v : T)
    (h : k ≠ p) : mapFind (mapInsert m k v) p = mapFind m p := by
  induction m with
  | nil => simp [mapInsert, mapFind, h]
  | cons kv rest ih =>
    obtain ⟨k0, v0⟩ := kv
    by_cases hk : k0 = k
    · subst hk
      simp [mapInsert, mapFind, h]
    · simp [mapInsert, mapFind, hk, ih]

theorem mapKeys_insert {T : Type} (m : EntityMap T) (k : String) (v : T) :
    mapKeys (mapInsert m k v) =
      if k ∈ mapKeys m then mapKeys m else mapKeys m ++ [k] := by
  induction m with
  | nil => simp [mapInsert, mapKeys]
  | cons kv rest ih =>
    obtain ⟨k0, v0⟩ := kv
    by_cases hk : k0 = k
    · subst hk
      simp [mapInsert, mapKeys]
    · have hne : ¬ k = k0 := fun h => hk h.symm
      simp only [mapInsert, if_neg hk, mapKeys, List.map_cons, List.mem_cons,
        hne, false_or] at *
      rw [ih]
      by_cases hmem : k ∈ List.map Prod.fst rest <;> simp [hmem]

theorem nodup_mapKeys_insert {T : Type} (m : EntityMap T) (k : String) (v : T)
    (h : (mapKeys m).Nodup) : (mapKeys (mapInsert m k v)).Nodup := by
  rw [mapKeys_insert]
  by_cases hmem : k ∈ mapKeys m
  · simpa [hmem] using h
  · simp only [hmem, if_false]
    exact List.Nodup.append h (List.nodup_singleton k)
      (by simpa [List.disjoint_singleton] using hmem)

theorem mapFind_eq_none_of_not_mem {T : Type} (m : EntityMap T) (p : String)
    (h : p ∉ mapKeys m) : mapFind m p = none := by
  induction m with
  | nil => rfl
  | cons kv rest ih =>
    obtain ⟨k0, v0⟩ := kv
    simp only [mapKeys, List.map_cons, List.mem_cons] at h
    push_neg at h
    have h1 : ¬ k0 = p := fun hEq => h.1 hEq.symm
    have h2 : mapFind rest p = none := ih (by simpa [mapKeys] using h.2)
    simp [mapFind, h1, h2]

theorem mapFind_filter {T : Type} (q : String × T → Bool) (m : EntityMap T)
    (p : String) (h : (mapKeys m).Nodup) :
    mapFind (m.filter q) p =
      match mapFind m p with
      | none => none
      | some v => if q (p, v) then some v else none := by
  induction m with
  | nil => simp [mapFind]
  | cons kv rest ih =>
    obtain ⟨k0, v0⟩ := kv
    have hcons : (k0 :: mapKeys rest).Nodup := h
    have hk0 : k0 ∉ mapKeys rest := (List.nodup_cons.mp hcons).1
    have hrest : (mapKeys rest).Nodup := (List.nodup_cons.mp hcons).2
    by_cases hkp : k0 = p
    · subst hkp
      by_cases hq : q (k0, v0)
      · simp [List.filter, hq, mapFind]
      · have hnone : mapFind (rest.filter q) k0 = none := by
          apply mapFind_eq_none_of_not_mem
          intro hmem
          apply hk0
          simp only [mapKeys, List.mem_map] at hmem ⊢
          obtain ⟨x, hx, hxk⟩ := hmem
          exact ⟨x, List.mem_of_mem_filter hx, hxk⟩
        simp [List.filter, hq, mapFind, hnone]
    · by_cases hq : q (k0, v0) <;>
        simp [List.filter, hq, mapFind, hkp, ih hrest]

/-! ### Helper lemmas about the reconciliation loops -/

theorem syncStep_find_ne {T : Type} (cE : ListingEntry → T)
    (uE : T → ListingEntry → T) (ex : T → Bool) (m : EntityMap T)
    (fe : ListingEntry) (p : String) (h : fe.path ≠ p) :
    mapFind (syncStep cE uE ex m fe) p = mapFind m p := by
  unfold syncStep
  cases hf : mapFind m fe.path with
  | none => simp [mapFind_insert_ne _ _ _ _ h]
  | some t =>
    by_cases hex : ex t <;> simp [hex, mapFind_insert_ne _ _ _ _ h]

theorem syncStep_find_self {T : Type} (cE : ListingEntry → T)
    (uE : T → ListingEntry → T) (ex : T → Bool) (m : EntityMap T)
    (fe : ListingEntry) :
    mapFind (syncStep cE uE ex m fe) fe.path =
      match mapFind m fe.path with
      | none => some (cE fe)
      | some t => if ex t then some t else some (uE t fe) := by
  unfold syncStep
  cases hf : mapFind m fe.path with
  | none => simp [mapFind_insert_self]
  | some t =>
    by_cases hex : ex t <;> simp [hex, hf, mapFind_insert_self]

theorem nodup_mapKeys_syncStep {T : Type} (cE : ListingEntry → T)
    (uE : T → ListingEntry → T) (ex : T → Bool) (m : EntityMap T)
    (fe : ListingEntry) (h : (mapKeys m).Nodup) :
    (mapKeys (syncStep cE uE ex m fe)).Nodup := by
  unfold syncStep
  cases mapFind m fe.path with
  | none => exact nodup_mapKeys_insert _ _ _ h
  | some t =>
    by_cases hex : ex t
    · simpa [hex] using h
    · simpa [hex] using nodup_mapKeys_insert m fe.path (uE t fe) h

theorem nodup_mapKeys_foldl_syncStep {T : Type} (cE : ListingEntry → T)
    (uE : T → ListingEntry → T) (ex : T → Bool) (l : List ListingEntry)
    (m : EntityMap T) (h : (mapKeys m).Nodup) :
    (mapKeys (l.foldl (syncStep cE uE ex) m)).Nodup := by
  induction l generalizing m with
  | nil => exact h
  | cons hd tl ih =>
    exact ih _ (nodup_mapKeys_syncStep _ _ _ _ _ h)

theorem foldl_syncStep_find_not_mem {T : Type} (cE : ListingEntry → T)
    (uE : T → ListingEntry → T) (ex : T → Bool) (l : List ListingEntry)
    (m : EntityMap T) (p : String) (h : ∀ e ∈ l, e.path ≠ p) :
    mapFind (l.foldl (syncStep cE uE ex) m) p = mapFind m p := by
  induction l generalizing m with
  | nil => rfl
  | cons hd tl ih =>
    rw [List.foldl_cons, ih _ (fun e he => h e (List.mem_cons_of_mem _ he)),
      syncStep_find_ne _ _ _ _ _ _ (h hd (List.mem_cons_self _ _))]

theorem foldl_syncStep_find_mem {T : Type} (cE : ListingEntry → T)
    (uE : T → ListingEntry → T) (ex : T → Bool) (l : List ListingEntry)
    (m : EntityMap T) (e : ListingEntry) (he : e ∈ l)
    (hnd : (l.map (fun x => x.path)).Nodup) :
    mapFind (l.foldl (syncStep cE uE ex) m) e.path =
      match mapFind m e.path with
      | none => some (cE e)
      | some t => if ex t then some t else some (uE t e) := by
  induction l generalizing m with
  | nil => cases he
  | cons hd tl ih =>
    have hnd2 : (hd.path :: tl.map (fun x => x.path)).Nodup := hnd
    have hhd : hd.path ∉ tl.map (fun x => x.path) := (List.nodup_cons.mp hnd2).1
    have htl : (tl.map (fun x => x.path)).Nodup := (List.nodup_cons.mp hnd2).2
    rcases List.mem_cons.mp he with rfl | he2
    · have hnotin : ∀ x ∈ tl, x.path ≠ e.path := by
        intro x hx hEq
        apply hhd
        rw [← hEq]
        exact List.mem_map_of_mem _ hx
      rw [List.foldl_cons, foldl_syncStep_find_not_mem _ _ _ _ _ _ hnotin,
        syncStep_find_self]
    · have hne : hd.path ≠ e.path := by
        intro hEq
        apply hhd
        rw [hEq]
        exact List.mem_map_of_mem _ he2
      rw [List.foldl_cons, ih _ he2 htl,
        syncStep_find_ne _ _ _ _ _ _ hne]

theorem mem_addUnique (s : List String) (x p : String) :
    p ∈ addUnique s x ↔ p ∈ s ∨ p = x := by
  unfold addUnique
  by_cases h : x ∈ s
  · simp only [h, if_true]
    constructor
    · exact Or.inl
    · rintro (hp | rfl)
      · exact hp
      · exact h
  · simp [h, List.mem_append]

theorem mem_dirFold (l : List ListingEntry) (s0 : List String) (p : String) :
    p ∈ l.foldl
        (fun s e => if e.entryType == EntryType.directory then addUnique s e.path else s)
        s0 ↔
      p ∈ s0 ∨ ∃ e ∈ l, e.entryType = EntryType.directory ∧ e.path = p := by
  induction l generalizing s0 with
  | nil => simp
  | cons hd tl ih =>
    rw [List.foldl_cons]
    by_cases h : hd.entryType = EntryType.directory
    · rw [if_pos (by simp [h]), ih, mem_addUnique]
      constructor
      · rintro (⟨hp | rfl⟩ | ⟨e, he, hed, hep⟩)
        · exact Or.inl hp
        · exact Or.inr ⟨hd, List.mem_cons_self _ _, h, rfl⟩
        · exact Or.inr ⟨e, List.mem_cons_of_mem _ he, hed, hep⟩
      · rintro (hp | ⟨e, he, hed, hep⟩)
        · exact Or.inl (Or.inl hp)
        · rcases List.mem_cons.mp he with rfl | he2
          · exact Or.inl (Or.inr hep.symm)
          · exact Or.inr ⟨e, he2, hed, hep⟩
    · rw [if_neg (by simp [h]), ih]
      constructor
      · rintro (hp | ⟨e, he, hed, hep⟩)
        · exact Or.inl hp
        · exact Or.inr ⟨e, List.mem_cons_of_mem _ he, hed, hep⟩
      · rintro (hp | ⟨e, he, hed, hep⟩)
        · exact Or.inl hp
        · rcases List.mem_cons.mp he with rfl | he2
          · exact absurd hed h
          · exact Or.inr ⟨e, he2, hed, hep⟩

theorem mem_dirSetOf (entries : List ListingEntry) (p : String) :
    p ∈ dirSetOf entries ↔
      ∃ e ∈ entries, e.entryType = EntryType.directory ∧ e.path = p := by
  unfold dirSetOf
  rw [mem_dirFold]
  simp

/-! ### Decomposition of a successful sync -/

theorem syncEntitiesV2_ok_parts {ε T : Type}
    (api : String → Except ε (List ListingEntry)) (path : String)
    (cE : ListingEntry → T) (uE : T → ListingEntry → T) (ex : T → Bool)
    (td : Bool) (st : SyncState T) (entries : List ListingEntry)
    (st2 : SyncState T) (hapi : api path = Except.ok entries)
    (hok : syncEntitiesV2 api path cE uE ex td st = Except.ok st2) :
    st2.entityByPath =
      ((fileEntriesOf entries).foldl (syncStep cE uE ex) st.entityByPath).filter
        (fun kv => ex kv.2 || (fileEntriesOf entries).any (fun e => e.path == kv.1)) ∧
    st2.dirSet = (if td then dirSetOf entries else st.dirSet) := by
  unfold syncEntitiesV2 at hok
  rw [hapi] at hok
  cases hok
  exact ⟨rfl, rfl⟩

theorem syncEntitiesV2_find_add {ε T : Type}
    (api : String → Except ε (List ListingEntry)) (path : String)
    (cE : ListingEntry → T) (uE : T → ListingEntry → T) (ex : T → Bool)
    (td : Bool) (st : SyncState T) (entries : List ListingEntry)
    (st2 : SyncState T) (hapi : api path = Except.ok entries)
    (hok : syncEntitiesV2 api path cE uE ex td st = Except.ok st2)
    (hnd0 : (mapKeys st.entityByPath).Nodup)
    (hndf : ((fileEntriesOf entries).map (fun e => e.path)).Nodup)
    (e : ListingEntry) (he : e ∈ fileEntriesOf entries)
    (habs : mapFind st.entityByPath e.path = none) :
    mapFind st2.entityByPath e.path = some (cE e) := by
  obtain ⟨hmap, -⟩ :=
    syncEntitiesV2_ok_parts api path cE uE ex td st entries st2 hapi hok
  have hany : (fileEntriesOf entries).any (fun x => x.path == e.path) = true :=
    List.any_eq_true.mpr ⟨e, he, by simp⟩
  rw [hmap, mapFind_filter _ _ _
    (nodup_mapKeys_foldl_syncStep cE uE ex _ _ hnd0),
    foldl_syncStep_find_mem cE uE ex _ _ e he hndf, habs]
  simp [hany]

theorem syncEntitiesV2_find_update {ε T : Type}
    (api : String → Except ε (List ListingEntry)) (path : String)
    (cE : ListingEntry → T) (uE : T → ListingEntry → T) (ex : T → Bool)
    (td : Bool) (st : SyncState T) (entries : List ListingEntry)
    (st2 : SyncState T) (hapi : api path = Except.ok entries)
    (hok : syncEntitiesV2 api path cE uE ex td st = Except.ok st2)
    (hnd0 : (mapKeys st.entityByPath).Nodup)
    (hndf : ((fileEntriesOf entries).map (fun e => e.path)).Nodup)
    (e : ListingEntry) (he : e ∈ fileEntriesOf entries) (t : T)
    (hex2 : mapFind st.entityByPath e.path = some t) (hex : ex t = false) :
    mapFind st2.entityByPath e.path = some (uE t e) := by
  obtain ⟨hmap, -⟩ :=
    syncEntitiesV2_ok_parts api path cE uE ex td st entries st2 hapi hok
  have hany : (fileEntriesOf entries).any (fun x => x.path == e.path) = true :=
    List.any_eq_true.mpr ⟨e, he, by simp⟩
  rw [hmap, mapFind_filter _ _ _
    (nodup_mapKeys_foldl_syncStep cE uE ex _ _ hnd0),
    foldl_syncStep_find_mem cE uE ex _ _ e he hndf, hex2]
  simp [hex, hany]

theorem syncEntitiesV2_find_remove {ε T : Type}
    (api : String → Except ε (List ListingEntry)) (path : String)
    (cE : ListingEntry → T) (uE : T → ListingEntry → T) (ex : T → Bool)
    (td : Bool) (st : SyncState T) (entries : List ListingEntry)
    (st2 : SyncState T) (hapi : api path = Except.ok entries)
    (hok : syncEntitiesV2 api path cE uE ex td st = Except.ok st2)
    (hnd0 : (mapKeys st.entityByPath).Nodup)
    (p : String) (habs : ∀ e ∈ fileEntriesOf entries, e.path ≠ p)
    (t : T) (hex2 : mapFind st.entityByPath p = some t) (hex : ex t = false) :
    mapFind st2.entityByPath p = none := by
  obtain ⟨hmap, -⟩ :=
    syncEntitiesV2_ok_parts api path cE uE ex td st entries st2 hapi hok
  have hany : (fileEntriesOf entries).any (fun x => x.path == p) = false := by
    rw [List.any_eq_false]
    intro x hx
    simpa using habs x hx
  rw [hmap, mapFind_filter _ _ _
    (nodup_mapKeys_foldl_syncStep cE uE ex _ _ hnd0),
    foldl_syncStep_find_not_mem cE uE ex _ _ _ habs, hex2]
  simp [hex, hany]

/-! ### Claim theorems -/

/-- C9: `unload()` clears `content`, `originalContent` and `isLoading`
unconditionally (it is a total function, so it always succeeds), leaves
the identity and metadata fields alone, and is idempotent: a second
`unload()` yields the same state as the first. -/
theorem unload_clears_and_idempotent (f : UserFile) :
    f.unload.content = none ∧ f.unload.originalContent = none ∧
    f.unload.isLoading = false ∧ f.unload.unload = f.unload ∧
    f.unload.path = f.path ∧ f.unload.lastModified = f.lastModified ∧
    f.unload.size = f.size :=
  ⟨rfl, rfl, rfl, rfl, rfl, rfl, rfl⟩

/-- C7: when the remote listing call inside sync fails, the sync
rejects with that same error and the local state is returned untouched
(the error value carries the unchanged `SyncState`): no entity is
added, updated or removed and the directory set is not modified, since
the reconciler only mutates state after the listing succeeds.  Stated
for the generic reconciler and for the store's `syncFiles`. -/
theorem sync_listing_error_rejects_unchanged :
    (∀ (ε T : Type) (api : String → Except ε (List ListingEntry)) (path : String)
      (cE : ListingEntry → T) (uE : T → ListingEntry → T) (ex : T → Bool)
      (td : Bool) (st : SyncState T) (err : ε),
      api path = Except.error err →
      syncEntitiesV2 api path cE uE ex td st = Except.error (err, st)) ∧
    (∀ (ε : Type) (api : String → Except ε (List ListingEntry)) (dir : String)
      (st : SyncState UserFile) (err : ε),
      api dir = Except.error err →
      syncFiles api dir st = Except.error (err, st)) := by
  constructor
  · intro ε T api path cE uE ex td st err hapi
    unfold syncEntitiesV2
    rw [hapi]
  · intro ε api dir st err hapi
    unfold syncFiles syncEntitiesV2
    rw [hapi]

/-- C7 witness: a concrete failing listing rejects the sync and hands
back the input state unchanged. -/
theorem sync_listing_error_rejects_unchanged_witness :
    @syncFiles Unit (fun _ => Except.error ()) "" ⟨[], ["d"]⟩ =
      Except.error ((), ⟨[], ["d"]⟩) :=
  sync_listing_error_rejects_unchanged.2 Unit (fun _ => Except.error ()) ""
    ⟨[], ["d"]⟩ () rfl

/-- C10: an entity materialized from a server listing entry during sync
is created by `syncFilesCreate`, which defaults a missing `size` or
`modified` to `0` (not the temporary sentinel `-1`); hence, the
reported size being a byte count (never `-1`), every sync-created
entity is persisted.  The last conjunct states this through a full
`syncFiles` run: a freshly added entity is persisted. -/
theorem syncFilesCreate_persisted (entry : ListingEntry) :
    (0 ≤ entry.size.getD 0 →
      (syncFilesCreate entry).isTemporary = false ∧
      (syncFilesCreate entry).isPersisted = true) ∧
    (entry.size = none → (syncFilesCreate entry).size = 0) ∧
    (entry.modified = none → (syncFilesCreate entry).lastModified = 0) ∧
    (∀ (ε : Type) (api : String → Except ε (List ListingEntry)) (dir : String)
      (st : SyncState UserFile) (entries : List ListingEntry)
      (st2 : SyncState UserFile),
      api dir = Except.ok entries →
      syncFiles api dir st = Except.ok st2 →
      (mapKeys st.entityByPath).Nodup →
      ((fileEntriesOf entries).map (fun e => e.path)).Nodup →
      entry ∈ fileEntriesOf entries →
      mapFind st.entityByPath entry.path = none →
      0 ≤ entry.size.getD 0 →
      ∃ g, mapFind st2.entityByPath entry.path = some g ∧ g.isPersisted = true) := by
  have hsz : (syncFilesCreate entry).size = entry.size.getD 0 := rfl
  have hkey : ∀ h : 0 ≤ entry.size.getD 0,
      (syncFilesCreate entry).isTemporary = false ∧
      (syncFilesCreate entry).isPersisted = true := by
    intro h
    have hne : (syncFilesCreate entry).size ≠ -1 := by
      rw [hsz]
      omega
    constructor
    · simpa [UserFile.isTemporary] using hne
    · simp only [UserFile.isPersisted]
      simpa [UserFile.isTemporary] using hne
  refine ⟨hkey, ?_, ?_, ?_⟩
  · intro h
    simp [syncFilesCreate, UserFile.create, h]
  · intro h
    simp [syncFilesCreate, UserFile.create, h]
  · intro ε api dir st entries st2 hapi hok hnd0 hndf he habs hsz0
    refine ⟨syncFilesCreate entry, ?_, (hkey hsz0).2⟩
    exact syncEntitiesV2_find_add api dir syncFilesCreate syncFilesUpdate
      (fun _ => false) true st entries st2 hapi hok hnd0 hndf entry he habs

/-- C10 witness: a listing entry with both metadata fields missing
materializes as a persisted entity with `size = 0`, `lastModified = 0`. -/
theorem syncFilesCreate_persisted_witness :
    (syncFilesCreate ⟨"dir/file1.txt", EntryType.file, none, none⟩).isPersisted = true ∧
    (syncFilesCreate ⟨"dir/file1.txt", EntryType.file, none, none⟩).size = 0 ∧
    (syncFilesCreate ⟨"dir/file1.txt", EntryType.file, none, none⟩).lastModified = 0 :=
  ⟨((syncFilesCreate_persisted ⟨"dir/file1.txt", EntryType.file, none, none⟩).1
      (by decide)).2,
    (syncFilesCreate_persisted ⟨"dir/file1.txt", EntryType.file, none, none⟩).2.1 rfl,
    (syncFilesCreate_persisted ⟨"dir/file1.txt", EntryType.file, none, none⟩).2.2.1 rfl⟩

/-- C5: `load()` returns the entity with no remote call and no state
change when it is temporary, or already loaded with `force = false`;
otherwise it issues the fetch and, on a non-200 status, throws the
error message built from the path, status and status text while the
entity is left with `isLoading = true`; on status 200 it stores the
fetched text as `content` and `originalContent` and clears
`isLoading`. -/
theorem load_behaviour (f : UserFile) (force : Bool) (resp : GetResp) :
    (f.isTemporary = true → f.load force resp = ([], Except.ok f)) ∧
    (force = false → f.isLoaded = true → f.load force resp = ([], Except.ok f)) ∧
    (f.isTemporary = false → (force = true ∨ f.isLoaded = false) →
      resp.status ≠ 200 →
      f.load force resp = ([ApiCall.getUserData f.path],
        Except.error (loadErrorMsg f.path resp.status resp.statusText,
          { f with isLoading := true }))) ∧
    (f.isTemporary = false → (force = true ∨ f.isLoaded = false) →
      resp.status = 200 →
      f.load force resp = ([ApiCall.getUserData f.path],
        Except.ok { f with
          content := some resp.text,
          originalContent := some resp.text,
          isLoading := false })) := by
  refine ⟨?_, ?_, ?_, ?_⟩
  · intro h
    simp [UserFile.load, h]
  · intro hf hl
    subst hf
    simp [UserFile.load, hl]
  · intro ht hfl hs
    have hcond : (f.isTemporary || (!force && f.isLoaded)) = false := by
      rcases hfl with rfl | hl
      · simp [ht]
      · simp [ht, hl]
    simp [UserFile.load, hcond, hs]
  · intro ht hfl hs
    have hcond : (f.isTemporary || (!force && f.isLoaded)) = false := by
      rcases hfl with rfl | hl
      · simp [ht]
      · simp [ht, hl]
    simp [UserFile.load, hcond, hs]

/-- C5 witness: a persisted, unloaded entity with a 404 response throws
the formatted error and is left with `isLoading = true`; the
temporary-entity branch is also instantiated. -/
theorem load_behaviour_witness :
    ((UserFile.create "file1.txt" 123 100).load false ⟨404, "Not Found", ""⟩ =
      ([ApiCall.getUserData "file1.txt"],
        Except.error (loadErrorMsg "file1.txt" 404 "Not Found",
          { UserFile.create "file1.txt" 123 100 with isLoading := true }))) ∧
    ((UserFile.createTemporary "tmp.txt" 0).load false ⟨500, "", ""⟩ =
      ([], Except.ok (UserFile.createTemporary "tmp.txt" 0))) :=
  ⟨by
    have h := (load_behaviour (UserFile.create "file1.txt" 123 100) false
      ⟨404, "Not Found", ""⟩).2.2.1 (by decide) (Or.inr (by decide)) (by decide)
    simpa using h,
   (load_behaviour (UserFile.createTemporary "tmp.txt" 0) false
      ⟨500, "", ""⟩).1 (by decide)⟩

/-- C4: `save()` with `force = false` on a persisted, unmodified entity
performs no remote call and returns the same entity; on a modified or
temporary entity it performs exactly one store call whose `overwrite`
flag is the value of `isPersisted` before the call, and afterwards
`originalContent = content` (so `isModified` is false). -/
theorem save_behaviour (f : UserFile) (r : Sum String UserDataFullInfo) :
    (f.isPersisted = true → f.isModified = false → f.save false r = ([], f)) ∧
    ((f.isModified = true ∨ f.isTemporary = true) →
      (f.save false r).1 = [ApiCall.storeUserData f.path f.content f.isPersisted] ∧
      ((f.save false r).2).isModified = false ∧
      ((f.save false r).2).originalContent = f.content ∧
      ((f.save false r).2).content = f.content) := by
  constructor
  · intro hp hm
    simp [UserFile.save, hp, hm]
  · intro h
    have hcond : ¬(f.isPersisted = true ∧ f.content = f.originalContent) := by
      rcases h with hm | ht
      · rintro ⟨-, hco⟩
        simp [UserFile.isModified, hco] at hm
      · rintro ⟨hp, -⟩
        rw [UserFile.isPersisted, ht] at hp
        simp at hp
    cases r with
    | inl s => simp [UserFile.save, UserFile.isModified, hcond]
    | inr info => simp [UserFile.save, UserFile.isModified, hcond]

/-- C4 witness: an unmodified persisted entity saves to itself with no
call; a modified persisted entity issues the single store call with
`overwrite = true` and comes back unmodified. -/
theorem save_behaviour_witness :
    ((UserFile.create "file1.txt" 123 100).save false (Sum.inl "x") =
      ([], UserFile.create "file1.txt" 123 100)) ∧
    (({ UserFile.create "file1.txt" 123 100 with
        content := some "modified content",
        originalContent := some "original content" }).save false
          (Sum.inr ⟨456, 200⟩)).1 =
      [ApiCall.storeUserData "file1.txt" (some "modified content") true] ∧
    ((({ UserFile.create "file1.txt" 123 100 with
        content := some "modified content",
        originalContent := some "original content" }).save false
          (Sum.inr ⟨456, 200⟩)).2).isModified = false :=
  ⟨(save_behaviour (UserFile.create "file1.txt" 123 100) (Sum.inl "x")).1
      (by decide) (by decide),
    by
      have h := (save_behaviour
        { UserFile.create "file1.txt" 123 100 with
          content := some "modified content",
          originalContent := some "original content" }
        (Sum.inr ⟨456, 200⟩)).2 (Or.inl (by decide))
      simpa using h.1,
    by
      have h := (save_behaviour
        { UserFile.create "file1.txt" 123 100 with
          content := some "modified content",
          originalContent := some "original content" }
        (Sum.inr ⟨456, 200⟩)).2 (Or.inl (by decide))
      exact h.2.1⟩

/-- C2 counterexample: `saveAs(newPath)` on a temporary entity reuses
the receiver without updating its path, so the returned entity's path
is the old path, not `newPath`, and the store call targets the old
path. -/
theorem saveAs_temporary_ignores_newPath :
    ((UserFile.createTemporary "a.txt" 0).saveAs "b.txt" 1
        (Sum.inr ⟨456, 200⟩)).2.path ≠ "b.txt" := by
  decide

/-- C2 (amended): on a temporary entity, `saveAs(newPath)` reuses the
receiver but leaves its path unchanged (`newPath` is ignored) and saves
at the old path with `overwrite = false`; on a persisted entity it
constructs a distinct temporary entity at `newPath` carrying the same
content, saves it with `overwrite = false`, and the original entity is
not mutated (in this functional embedding the input `f` is untouched by
construction, and the call trace shows the store targets `newPath`, not
`f.path`). -/
theorem saveAs_behaviour (f : UserFile) (newPath : String) (now : Int)
    (r : Sum String UserDataFullInfo) :
    (f.isTemporary = true →
      f.saveAs newPath now r = f.save false r ∧
      (f.saveAs newPath now r).2.path = f.path ∧
      (f.saveAs newPath now r).1 =
        [ApiCall.storeUserData f.path f.content false]) ∧
    (f.isPersisted = true →
      f.saveAs newPath now r =
        ({ UserFile.createTemporary newPath now with
          content := f.content }).save false r ∧
      (f.saveAs newPath now r).2.path = newPath ∧
      (f.saveAs newPath now r).1 =
        [ApiCall.storeUserData newPath f.content false]) := by
  constructor
  · intro h
    have hp : f.isPersisted = false := by
      simp [UserFile.isPersisted, h]
    refine ⟨by simp [UserFile.saveAs, h], ?_, ?_⟩
    · unfold UserFile.saveAs
      rw [h]
      simp only [if_pos rfl]
      cases r with
      | inl s => simp [UserFile.save, hp]
      | inr info => simp [UserFile.save, hp]
    · unfold UserFile.saveAs
      rw [h]
      simp only [if_pos rfl]
      cases r with
      | inl s => simp [UserFile.save, hp]
      | inr info => simp [UserFile.save, hp]
  · intro h
    have ht : f.isTemporary = false := by
      rw [UserFile.isPersisted] at h
      cases hx : f.isTemporary
      · rfl
      · rw [hx] at h
        simp at h
    refine ⟨by simp [UserFile.saveAs, ht], ?_, ?_⟩
    · unfold UserFile.saveAs
      rw [ht]
      simp only [Bool.false_eq_true, if_neg]
      cases r with
      | inl s =>
        simp [UserFile.save, UserFile.isPersisted, UserFile.isTemporary,
          UserFile.createTemporary, UserFile.create]
      | inr info =>
        simp [UserFile.save, UserFile.isPersisted, UserFile.isTemporary,
          UserFile.createTemporary, UserFile.create]
    · unfold UserFile.saveAs
      rw [ht]
      simp only [Bool.false_eq_true, if_neg]
      cases r with
      | inl s =>
        simp [UserFile.save, UserFile.isPersisted, UserFile.isTemporary,
          UserFile.createTemporary, UserFile.create]
      | inr info =>
        simp [UserFile.save, UserFile.isPersisted, UserFile.isTemporary,
          UserFile.createTemporary, UserFile.create]

/-- C2 witness: a persisted entity saved-as issues the store call at
the new path with `overwrite = false` and the returned entity lives at
the new path. -/
theorem saveAs_behaviour_witness :
    (({ UserFile.create "file1.txt" 123 100 with
        content := some "file content" } : UserFile).saveAs "newfile.txt" 1
          (Sum.inr ⟨456, 200⟩)).2.path = "newfile.txt" ∧
    (({ UserFile.create "file1.txt" 123 100 with
        content := some "file content" } : UserFile).saveAs "newfile.txt" 1
          (Sum.inr ⟨456, 200⟩)).1 =
      [ApiCall.storeUserData "newfile.txt" (some "file content") false] :=
  ⟨((saveAs_behaviour
      { UserFile.create "file1.txt" 123 100 with content := some "file content" }
      "newfile.txt" 1 (Sum.inr ⟨456, 200⟩)).2 (by decide)).2.1,
    ((saveAs_behaviour
      { UserFile.create "file1.txt" 123 100 with content := some "file content" }
      "newfile.txt" 1 (Sum.inr ⟨456, 200⟩)).2 (by decide)).2.2⟩

/-- C3 counterexample: a successful save whose response body is a
legacy bare string leaves a temporary entity's size at `-1`, so the
entity is still temporary after a successful save. -/
theorem save_legacy_string_keeps_temporary :
    ((UserFile.createTemporary "notes.txt" 5).save false
        (Sum.inl "notes.txt")).2.isTemporary = true := by
  decide

/-- C3 (amended): a temporary entity's `size` stays `-1` under `load`,
`unload`, `rename` and `delete`; a successful save whose response
carries a full metadata object makes the entity adopt the
server-reported `size` and `lastModified` (and, the reported size not
being `-1`, it becomes persisted); a successful save whose response is
a legacy bare string leaves `size` at `-1`, the entity still
temporary. -/
theorem temporary_size_invariant (f : UserFile) (h : f.isTemporary = true) :
    f.size = -1 ∧
    (∀ (force : Bool) (resp : GetResp), f.load force resp = ([], Except.ok f)) ∧
    f.unload.size = -1 ∧
    (∀ (newPath : String) (resp : MoveResp),
      f.rename newPath resp = ([], Except.ok (f.updatePath newPath)) ∧
      (f.updatePath newPath).size = -1) ∧
    (∀ resp : StatusResp, f.delete resp = ([], Except.ok f)) ∧
    (∀ s : String, ((f.save false (Sum.inl s)).2).size = -1 ∧
      ((f.save false (Sum.inl s)).2).isTemporary = true) ∧
    (∀ info : UserDataFullInfo,
      ((f.save false (Sum.inr info)).2).size = info.size ∧
      ((f.save false (Sum.inr info)).2).lastModified = info.modified ∧
      (info.size ≠ -1 → ((f.save false (Sum.inr info)).2).isPersisted = true)) := by
  have hsz : f.size = -1 := by
    simpa [UserFile.isTemporary] using h
  have hp : f.isPersisted = false := by
    simp [UserFile.isPersisted, h]
  refine ⟨hsz, ?_, hsz, ?_, ?_, ?_, ?_⟩
  · intro force resp
    simp [UserFile.load, h]
  · intro newPath resp
    exact ⟨by simp [UserFile.rename, h], hsz⟩
  · intro resp
    simp [UserFile.delete, h]
  · intro s
    constructor
    · simp [UserFile.save, UserFile.isPersisted, UserFile.isTemporary, hsz]
    · simp [UserFile.save, UserFile.isPersisted, UserFile.isTemporary, hsz]
  · intro info
    refine ⟨?_, ?_, ?_⟩
    · simp [UserFile.save, UserFile.isPersisted, UserFile.isTemporary, hsz]
    · simp [UserFile.save, UserFile.isPersisted, UserFile.isTemporary, hsz]
    · intro hne
      simp [UserFile.save, UserFile.isPersisted, UserFile.isTemporary, hsz]
      exact hne

/-- C3 witness: the amended statement instantiated on a concrete
temporary entity: its size is `-1`, and a full-metadata save turns it
into a persisted entity with the reported metadata. -/
theorem temporary_size_invariant_witness :
    (UserFile.createTemporary "a.txt" 0).size = -1 ∧
    (((UserFile.createTemporary "a.txt" 0).save false
        (Sum.inr ⟨456, 200⟩)).2).size = 200 ∧
    (((UserFile.createTemporary "a.txt" 0).save false
        (Sum.inr ⟨456, 200⟩)).2).isPersisted = true :=
  ⟨(temporary_size_invariant (UserFile.createTemporary "a.txt" 0) (by decide)).1,
    ((temporary_size_invariant (UserFile.createTemporary "a.txt" 0)
        (by decide)).2.2.2.2.2.2 ⟨456, 200⟩).1,
    ((temporary_size_invariant (UserFile.createTemporary "a.txt" 0)
        (by decide)).2.2.2.2.2.2 ⟨456, 200⟩).2.2 (by decide)⟩

/-- C8: `rename(newPath)` on a temporary entity updates only the local
path fields (path, directory, fullFilename, filename, suffix) with no
remote call and returns the same entity; on a persisted entity it
issues the move call, throws the descriptive error with the path
unchanged on any non-200 status, and on success updates the path
fields and, when the response body is a full metadata object, adopts
`lastModified`/`size` from it.  The final conjunct checks the concrete
scenario of a move response `(modified 456, size 200)`. -/
theorem rename_behaviour (f : UserFile) (newPath : String) (resp : MoveResp) :
    (f.isTemporary = true →
      f.rename newPath resp = ([], Except.ok (f.updatePath newPath)) ∧
      (f.updatePath newPath).path = newPath ∧
      (f.updatePath newPath).directory = (getPathDetails newPath).directory ∧
      (f.updatePath newPath).fullFilename = (getPathDetails newPath).fullFilename ∧
      (f.updatePath newPath).filename = (getPathDetails newPath).filename ∧
      (f.updatePath newPath).suffix = (getPathDetails newPath).suffix ∧
      (f.updatePath newPath).size = f.size ∧
      (f.updatePath newPath).lastModified = f.lastModified) ∧
    (f.isPersisted = true → resp.status ≠ 200 →
      f.rename newPath resp = ([ApiCall.moveUserData f.path newPath],
        Except.error (renameErrorMsg f.path resp.status resp.statusText, f))) ∧
    (f.isPersisted = true → resp.status = 200 →
      ∀ info : UserDataFullInfo, resp.json = Sum.inr info →
      f.rename newPath resp = ([ApiCall.moveUserData f.path newPath],
        Except.ok { f.updatePath newPath with
          lastModified := info.modified,
          size := info.size })) ∧
    (f.isPersisted = true → resp.status = 200 →
      ∀ s : String, resp.json = Sum.inl s →
      f.rename newPath resp = ([ApiCall.moveUserData f.path newPath],
        Except.ok (f.updatePath newPath))) ∧
    (((UserFile.create "file1.txt" 123 100).rename "newfile.txt"
        ⟨200, "OK", Sum.inr ⟨456, 200⟩⟩).2 =
      Except.ok { UserFile.create "newfile.txt" 123 100 with
        lastModified := 456,
        size := 200 }) := by
  have htOf : f.isPersisted = true → f.isTemporary = false := by
    intro h
    rw [UserFile.isPersisted] at h
    cases hx : f.isTemporary
    · rfl
    · rw [hx] at h
      simp at h
  refine ⟨?_, ?_, ?_, ?_, rfl⟩
  · intro h
    exact ⟨by simp [UserFile.rename, h], rfl, rfl, rfl, rfl, rfl, rfl, rfl⟩
  · intro h hs
    simp [UserFile.rename, htOf h, hs]
  · intro h hs info hjson
    simp [UserFile.rename, htOf h, hs, hjson]
  · intro h hs s hjson
    simp [UserFile.rename, htOf h, hs, hjson]

/-- C8 witness: the temporary branch instantiated (rename is local and
keeps size), and the persisted error branch instantiated on a 500
response (path unchanged, error carries the formatted message). -/
theorem rename_behaviour_witness :
    ((UserFile.createTemporary "t.txt" 0).rename "u/v.md" ⟨500, "", Sum.inl ""⟩ =
      ([], Except.ok ((UserFile.createTemporary "t.txt" 0).updatePath "u/v.md")) ∧
    ((UserFile.createTemporary "t.txt" 0).updatePath "u/v.md").path = "u/v.md") ∧
    ((UserFile.create "a.txt" 1 2).rename "b.txt" ⟨500, "Server Error", Sum.inl ""⟩ =
      ([ApiCall.moveUserData "a.txt" "b.txt"],
        Except.error (renameErrorMsg "a.txt" 500 "Server Error",
          UserFile.create "a.txt" 1 2))) :=
  ⟨⟨((rename_behaviour (UserFile.createTemporary "t.txt" 0) "u/v.md"
        ⟨500, "", Sum.inl ""⟩).1 (by decide)).1,
    ((rename_behaviour (UserFile.createTemporary "t.txt" 0) "u/v.md"
        ⟨500, "", Sum.inl ""⟩).1 (by decide)).2.1⟩,
    (rename_behaviour (UserFile.create "a.txt" 1 2) "b.txt"
        ⟨500, "Server Error", Sum.inl ""⟩).2.1 (by decide) (by decide)⟩

/-- C6: after a successful `syncFiles(dir)`, the tracked directory set
is exactly the set of paths of directory-typed entries of that
listing, independently of the previous directory set: a wholesale
replacement, so previously tracked directories absent from the new
listing are dropped whether they lie inside or outside the queried
subtree. -/
theorem sync_dirset_wholesale :
    ∀ (ε : Type) (api : String → Except ε (List ListingEntry)) (dir : String)
      (st : SyncState UserFile) (entries : List ListingEntry)
      (st2 : SyncState UserFile),
      api dir = Except.ok entries →
      syncFiles api dir st = Except.ok st2 →
      ∀ p : String, p ∈ st2.dirSet ↔
        ∃ e ∈ entries, e.entryType = EntryType.directory ∧ e.path = p := by
  intro ε api dir st entries st2 hapi hok p
  obtain ⟨-, hdir⟩ := syncEntitiesV2_ok_parts api dir syncFilesCreate
    syncFilesUpdate (fun _ => false) true st entries st2 hapi hok
  rw [hdir, if_pos rfl]
  exact mem_dirSetOf entries p

/-- C6 witness: syncing a listing with one file and one directory entry
against a state that tracked an unrelated directory (`stale`, outside
the queried subtree) yields a directory set containing exactly
`dir/subdir`; in particular `stale` was dropped. -/
theorem sync_dirset_wholesale_witness :
    ("dir/subdir" ∈ (SyncState.dirSet
        ⟨[("dir/file1.txt", UserFile.create "dir/file1.txt" 123 100)],
          ["dir/subdir"]⟩ : List String) ↔
      ∃ e ∈ [(⟨"dir/file1.txt", EntryType.file, some 100, some 123⟩ : ListingEntry),
          ⟨"dir/subdir", EntryType.directory, none, none⟩],
        e.entryType = EntryType.directory ∧ e.path = "dir/subdir") ∧
    ("stale" ∈ (SyncState.dirSet
        ⟨[("dir/file1.txt", UserFile.create "dir/file1.txt" 123 100)],
          ["dir/subdir"]⟩ : List String) ↔
      ∃ e ∈ [(⟨"dir/file1.txt", EntryType.file, some 100, some 123⟩ : ListingEntry),
          ⟨"dir/subdir", EntryType.directory, none, none⟩],
        e.entryType = EntryType.directory ∧ e.path = "stale") :=
  ⟨sync_dirset_wholesale Unit
      (fun _ => Except.ok [⟨"dir/file1.txt", EntryType.file, some 100, some 123⟩,
        ⟨"dir/subdir", EntryType.directory, none, none⟩])
      "dir" ⟨[], ["stale"]⟩
      [⟨"dir/file1.txt", EntryType.file, some 100, some 123⟩,
        ⟨"dir/subdir", EntryType.directory, none, none⟩]
      ⟨[("dir/file1.txt", UserFile.create "dir/file1.txt" 123 100)],
        ["dir/subdir"]⟩
      rfl rfl "dir/subdir",
    sync_dirset_wholesale Unit
      (fun _ => Except.ok [⟨"dir/file1.txt", EntryType.file, some 100, some 123⟩,
        ⟨"dir/subdir", EntryType.directory, none, none⟩])
      "dir" ⟨[], ["stale"]⟩
      [⟨"dir/file1.txt", EntryType.file, some 100, some 123⟩,
        ⟨"dir/subdir", EntryType.directory, none, none⟩]
      ⟨[("dir/file1.txt", UserFile.create "dir/file1.txt" 123 100)],
        ["dir/subdir"]⟩
      rfl rfl "stale"⟩

/-- C1: for every collection state and every successfully fetched
server listing, sync performs the add/update/remove diff: a file entry
with no entity at its path adds the created entity; a file entry whose
path holds a non-excluded entity replaces it by the updated entity
(which for the store's callbacks adopts the entry metadata and is
unloaded unconditionally, so the cache is cleared even when the
reported metadata is identical); and every non-excluded entity whose
path is absent from the file entries is removed.  The final two
conjuncts check the concrete scenarios: a prior collection `A, B`
against a listing of only `A` (with identical metadata) yields exactly
`A` with content cleared; against a listing `A, C` it yields exactly
`A, C` with A's content cleared. -/
theorem sync_add_update_remove :
    (∀ (ε T : Type) (api : String → Except ε (List ListingEntry)) (path : String)
      (cE : ListingEntry → T) (uE : T → ListingEntry → T) (ex : T → Bool)
      (td : Bool) (st : SyncState T) (entries : List ListingEntry)
      (st2 : SyncState T),
      api path = Except.ok entries →
      syncEntitiesV2 api path cE uE ex td st = Except.ok st2 →
      (mapKeys st.entityByPath).Nodup →
      ((fileEntriesOf entries).map (fun e => e.path)).Nodup →
      (∀ e ∈ fileEntriesOf entries, mapFind st.entityByPath e.path = none →
        mapFind st2.entityByPath e.path = some (cE e)) ∧
      (∀ e ∈ fileEntriesOf entries, ∀ t, mapFind st.entityByPath e.path = some t →
        ex t = false → mapFind st2.entityByPath e.path = some (uE t e)) ∧
      (∀ p : String, (∀ e ∈ fileEntriesOf entries, e.path ≠ p) →
        ∀ t, mapFind st.entityByPath p = some t → ex t = false →
        mapFind st2.entityByPath p = none)) ∧
    (∀ (existingFile : UserFile) (entry : ListingEntry),
      (syncFilesUpdate existingFile entry).content = none ∧
      (syncFilesUpdate existingFile entry).originalContent = none ∧
      (syncFilesUpdate existingFile entry).lastModified =
        entry.modified.getD existingFile.lastModified ∧
      (syncFilesUpdate existingFile entry).size =
        entry.size.getD existingFile.size) ∧
    (@syncFiles Unit (fun _ => Except.ok [⟨"A", EntryType.file, some 10, some 123⟩]) ""
        ⟨[("A", { UserFile.create "A" 123 10 with
            content := some "c", originalContent := some "c" }),
          ("B", UserFile.create "B" 1 5)], []⟩ =
      Except.ok ⟨[("A", UserFile.create "A" 123 10)], []⟩) ∧
    (@syncFiles Unit (fun _ => Except.ok [⟨"A", EntryType.file, some 10, some 123⟩,
          ⟨"C", EntryType.file, some 7, some 9⟩]) ""
        ⟨[("A", { UserFile.create "A" 123 10 with
            content := some "c", originalContent := some "c" }),
          ("B", UserFile.create "B" 1 5)], []⟩ =
      Except.ok ⟨[("A", UserFile.create "A" 123 10),
        ("C", UserFile.create "C" 9 7)], []⟩) := by
  refine ⟨?_, ?_, rfl, rfl⟩
  · intro ε T api path cE uE ex td st entries st2 hapi hok hnd0 hndf
    refine ⟨?_, ?_, ?_⟩
    · intro e he habs
      exact syncEntitiesV2_find_add api path cE uE ex td st entries st2
        hapi hok hnd0 hndf e he habs
    · intro e he t hf hex
      exact syncEntitiesV2_find_update api path cE uE ex td st entries st2
        hapi hok hnd0 hndf e he t hf hex
    · intro p habs t hf hex
      exact syncEntitiesV2_find_remove api path cE uE ex td st entries st2
        hapi hok hnd0 p habs t hf hex
  · intro existingFile entry
    exact ⟨rfl, rfl, rfl, rfl⟩

/-- C1 witness: the update branch of the diff instantiated on a
concrete state holding a loaded entity `A` and a listing reporting
identical metadata for `A`: the entity is replaced by its updated,
unloaded version. -/
theorem sync_add_update_remove_witness :
    mapFind (SyncState.entityByPath
        ⟨[("A", UserFile.create "A" 123 10)], []⟩) "A" =
      some (syncFilesUpdate
        { UserFile.create "A" 123 10 with
          content := some "c", originalContent := some "c" }
        ⟨"A", EntryType.file, some 10, some 123⟩) :=
  ((sync_add_update_remove.1 Unit UserFile
      (fun _ => Except.ok [⟨"A", EntryType.file, some 10, some 123⟩]) ""
      syncFilesCreate syncFilesUpdate (fun _ => false) true
      ⟨[("A", { UserFile.create "A" 123 10 with
          content := some "c", originalContent := some "c" }),
        ("B", UserFile.create "B" 1 5)], []⟩
      [⟨"A", EntryType.file, some 10, some 123⟩]
      ⟨[("A", UserFile.create "A" 123 10)], []⟩
      rfl rfl (by decide) (by decide)).2.1
    ⟨"A", EntryType.file, some 10, some 123⟩ (by decide)
    { UserFile.create "A" 123 10 with
      content := some "c", originalContent := some "c" }
    rfl rfl)

end UserFileStore
